import Mathlib

/-!
Verification of the sentiment-to-strategy decision engine of the
Miles-Edgeworth repository (`src/lib/my-lawyer/agent.ts`).

The engine is embedded shallowly:
* text is a `String`, processed as its list of characters;
* JavaScript `String.prototype.includes` on the lower-cased text becomes
  `containsSub` on `List Char`;
* the regex `\b[A-Z]{3,}\b` with global matching counts the maximal
  word-character runs that consist solely of 3+ uppercase ASCII letters
  (`capsCount`); the regexes `!{2,}` / `?{2,}` count maximal runs of the
  given punctuation character of length at least 2 (`punctRuns`);
* JavaScript numbers are modelled as exact rationals `ℚ` (every quantity
  the engine manipulates is an integer or a product with powers of 0.6;
  the claims under study are insensitive to binary-float rounding of 0.6);
* `Math.round` is `jsRound` (floor of x + 1/2, i.e. round half towards +∞),
  `Math.max/min` are `max`/`min` on `ℤ`.
-/

/-- ASCII uppercase letter test (`[A-Z]` in the regexes). -/
def isUpperAZ (c : Char) : Bool :=
  'A' ≤ c && c ≤ 'Z'

/-- JavaScript `\w`: ASCII letter, digit or underscore. -/
def isWordChar (c : Char) : Bool :=
  ('A' ≤ c && c ≤ 'Z') || ('a' ≤ c && c ≤ 'z') || ('0' ≤ c && c ≤ '9') || c == '_'

/-- ASCII lower-casing of one character, the behaviour of
`String.prototype.toLowerCase` on the ASCII texts the engine matches. -/
def jsToLowerChar (c : Char) : Char :=
  if 'A' ≤ c && c ≤ 'Z' then Char.ofNat (c.toNat + 32) else c

/-- `leadsWith needle hay`: `needle` occurs at the start of `hay`. -/
def leadsWith : List Char → List Char → Bool
  | [], _ => true
  | _ :: _, [] => false
  | a :: as, b :: bs => a == b && leadsWith as bs

/-- `containsSub needle hay`: `needle` occurs somewhere in `hay`
(JavaScript `hay.includes(needle)`). -/
def containsSub (needle : List Char) : List Char → Bool
  | [] => needle.isEmpty
  | c :: t => leadsWith needle (c :: t) || containsSub needle t

/-- State machine counting the matches of `\b[A-Z]{3,}\b`: maximal
word-character runs made only of uppercase letters, of length ≥ 3.
`allCaps` records whether the current run is all uppercase so far and
`len` its length (0 when not inside a run). -/
def capsCountAux : List Char → Bool → Nat → Nat → Nat
  | [], allCaps, len, acc => acc + (if allCaps && 3 ≤ len then 1 else 0)
  | c :: t, allCaps, len, acc =>
    if isWordChar c then
      capsCountAux t (allCaps && isUpperAZ c) (len + 1) acc
    else
      capsCountAux t true 0 (acc + (if allCaps && 3 ≤ len then 1 else 0))

/-- Number of matches of `\b[A-Z]{3,}\b` in the text. -/
def capsCount (text : List Char) : Nat :=
  capsCountAux text true 0 0

/-- State machine counting maximal runs of the character `ch` of length ≥ 2,
the number of matches of the regex `ch{2,}` under global matching. -/
def punctRunsAux (ch : Char) : List Char → Nat → Nat → Nat
  | [], len, acc => acc + (if 2 ≤ len then 1 else 0)
  | c :: t, len, acc =>
    if c == ch then
      punctRunsAux ch t (len + 1) acc
    else
      punctRunsAux ch t 0 (acc + (if 2 ≤ len then 1 else 0))

/-- Number of maximal runs of `ch` of length at least 2. -/
def punctRuns (ch : Char) (text : List Char) : Nat :=
  punctRunsAux ch text 0 0

/-- The `ANGER_WORDS` lexicon of `agent.ts` (each match adds +15). -/
def ANGER_WORDS : List String :=
  ["stupid", "wrong", "disagree", "hate", "terrible", "useless", "bad",
   "worst", "awful", "ridiculous", "nonsense", "garbage", "trash", "liar",
   "fake", "scam"]

/-- The `SKEPTICAL_PHRASES` lexicon of `agent.ts` (each match adds +10). -/
def SKEPTICAL_PHRASES : List String :=
  ["i don\x27t think", "i dont think", "that\x27s not true", "thats not true",
   "prove it", "not convinced", "i doubt", "unlikely", "hard to believe",
   "show me proof", "yeah right", "sure...", "really?", "are you sure",
   "i\x27m not sure", "im not sure"]

/-- The `POSITIVE_WORDS` lexicon of `agent.ts` (each match adds −8). -/
def POSITIVE_WORDS : List String :=
  ["great", "awesome", "excellent", "amazing", "impressive", "wonderful",
   "fantastic", "love", "thank", "thanks", "please", "interesting", "cool",
   "nice", "good", "helpful"]

/-- `analyzeTextScore` of `agent.ts`: raw score delta of one utterance.
Lexicon matching happens on the lower-cased text; the caps and punctuation
regexes run on the original text. -/
def analyzeTextScore (text : String) : ℤ :=
  let lower := text.data.map jsToLowerChar
  let s1 := ANGER_WORDS.foldl
    (fun score word => if containsSub word.data lower then score + 15 else score) (0 : ℤ)
  let s2 := SKEPTICAL_PHRASES.foldl
    (fun score phrase => if containsSub phrase.data lower then score + 10 else score) s1
  let s3 := POSITIVE_WORDS.foldl
    (fun score word => if containsSub word.data lower then score - 8 else score) s2
  let s4 := s3 + (capsCount text.data : ℤ) * 12
  s4 + ((punctRuns '!' text.data : ℤ) + (punctRuns '?' text.data : ℤ)) * 8

/-- The `Mood` union type of `agent.ts`. -/
inductive Mood
  | POSITIVE
  | NEUTRAL
  | SKEPTICAL
  | HOSTILE
deriving DecidableEq, Repr, Fintype

/-- The `Strategy` union type of `prompts.ts`. -/
inductive Strategy
  | AGGRESSIVE
  | ASSERTIVE
  | DIPLOMATIC
  | YIELDING
deriving DecidableEq, Repr, Fintype

/-- The `SentimentResult` interface of `agent.ts`. -/
structure SentimentResult where
  mood : Mood
  score : ℤ
  strategy : Strategy
deriving DecidableEq, Repr

/-- `getMoodFromScore` of `agent.ts`: the if-chain mapping a score to a mood. -/
def getMoodFromScore (score : ℤ) : Mood :=
  if score ≥ 70 then .HOSTILE
  else if score ≥ 40 then .SKEPTICAL
  else if score ≥ 20 then .NEUTRAL
  else .POSITIVE

/-- The named cases of the `switch` in `getStrategyFromMood` of `agent.ts`
(`none` would mean that only the `default` branch applies). -/
def strategySwitchCase : Mood → Option Strategy
  | .POSITIVE => some .AGGRESSIVE
  | .NEUTRAL => some .ASSERTIVE
  | .SKEPTICAL => some .DIPLOMATIC
  | .HOSTILE => some .YIELDING

/-- `getStrategyFromMood` of `agent.ts`: the switch over the mood, with its
`default` branch returning `ASSERTIVE`. -/
def getStrategyFromMood (mood : Mood) : Strategy :=
  (strategySwitchCase mood).getD .ASSERTIVE

/-- One history entry: `{ role: string; content: string }`. -/
structure Msg where
  role : String
  content : String
deriving DecidableEq, Repr

/-- `Math.round`: round to nearest, half towards +∞. -/
def jsRound (q : ℚ) : ℤ :=
  Int.floor (q + 1 / 2)

/-- The `decayFactor` constant `0.6` of `analyzeSentiment`. -/
def decayFactor : ℚ := 6 / 10

/-- The history loop of `analyzeSentiment`, exactly as the source writes
it: for index `i` it sets `messageAge = N - 1 - i` and the weight
`decayFactor ^ (N - 1 - messageAge)`, accumulating `messageScore * weight`
into the running total. -/
def historyLoop (userMessages : List Msg) : ℚ :=
  (List.range userMessages.length).foldl
    (fun totalScore i =>
      let messageAge := userMessages.length - 1 - i
      let weight : ℚ := decayFactor ^ (userMessages.length - 1 - messageAge)
      let messageScore := analyzeTextScore ((userMessages.getD i ⟨"", ""⟩).content)
      totalScore + (messageScore : ℚ) * weight)
    0

/-- `analyzeSentiment` of `agent.ts`. The history is optional
(`history?: { role: string; content: string }[]`); when present and
non-empty it is filtered to the user-authored turns and fed to the
decay loop. -/
def analyzeSentiment (text : String) (history : Option (List Msg)) :
    SentimentResult :=
  let afterHistory : ℚ :=
    match history with
    | none => 0
    | some h =>
      if h.length > 0 then historyLoop (h.filter (fun m => m.role == "user"))
      else 0
  let totalScore : ℚ := afterHistory + (analyzeTextScore text : ℤ)
  let finalScore : ℤ := max 0 (min (jsRound totalScore) 100)
  let mood := getMoodFromScore finalScore
  let strategy := getStrategyFromMood mood
  { mood := mood, score := finalScore, strategy := strategy }

/-- `getStrategy` of `agent.ts`. -/
def getStrategy (text : String) (history : Option (List Msg)) : Strategy :=
  (analyzeSentiment text history).strategy

/-! ### Specification-side reference formulas -/

/-- The weighted history total as the source actually computes it, written
as an explicit sum: the turn at zero-based index `i` of the retained
user-authored turns (oldest = 0) is weighted by `decayFactor ^ i`. -/
def codeHistTotal (scores : List ℤ) : ℚ :=
  ((List.range scores.length).map
    (fun i => ((scores.getD i 0 : ℤ) : ℚ) * decayFactor ^ i)).sum

/-- The weighted history total exactly as claim C1 and §4.2 of the spec
describe it: with `N` retained turns, the turn at zero-based index `i`
(oldest = 0) is weighted by `decayFactor ^ (N - 1 - i)`, so the most recent
turn has weight 1. -/
def specHistTotal (scores : List ℤ) : ℚ :=
  ((List.range scores.length).map
    (fun i => ((scores.getD i 0 : ℤ) : ℚ) * decayFactor ^ (scores.length - 1 - i))).sum

/-- Raw scores of the retained (user-authored) turns of a history,
oldest first. -/
def userScores (h : List Msg) : List ℤ :=
  (h.filter (fun m => m.role == "user")).map (fun m => analyzeTextScore m.content)

/-- Packaging of a raw total into the returned record, i.e. the part of
`analyzeSentiment` after the total is computed: round, clamp, classify. -/
def mkResult (total : ℚ) : SentimentResult :=
  let finalScore : ℤ := max 0 (min (jsRound total) 100)
  { mood := getMoodFromScore finalScore
    score := finalScore
    strategy := getStrategyFromMood (getMoodFromScore finalScore) }

/-! ### Decomposition lemmas -/

lemma foldl_add_eq_sum (f : ℕ → ℚ) (l : List ℕ) :
    l.foldl (fun acc i => acc + f i) 0 = (l.map f).sum := by
  rw [List.sum_eq_foldl, List.foldl_map]

/-- The source's fold (with its double `N - 1 - _` index gymnastics) equals
the explicit weighted sum with weight `decayFactor ^ i` at index `i`. -/
lemma historyLoop_eq_codeHistTotal (u : List Msg) :
    historyLoop u = codeHistTotal (u.map (fun m => analyzeTextScore m.content)) := by
  unfold historyLoop codeHistTotal
  rw [foldl_add_eq_sum
    (fun i => ((analyzeTextScore ((u.getD i ⟨"", ""⟩).content) : ℤ) : ℚ) *
      decayFactor ^ (u.length - 1 - (u.length - 1 - i)))]
  rw [List.length_map]
  refine congrArg List.sum (List.map_congr_left ?_)
  intro i hi
  rw [List.mem_range] at hi
  have hidx : u.length - 1 - (u.length - 1 - i) = i := by omega
  rw [hidx, List.getD_eq_getElem _ _ hi,
    List.getD_eq_getElem _ _ (by simpa using hi), List.getElem_map]

/-- Master decomposition: `analyzeSentiment` is the clamp-round-classify
packaging of the weighted sum of the user-authored turns' raw scores plus
the current utterance's raw score. -/
lemma analyzeSentiment_eq_mkResult (text : String) (history : Option (List Msg)) :
    analyzeSentiment text history =
      mkResult (codeHistTotal (userScores (history.getD [])) +
        (analyzeTextScore text : ℤ)) := by
  cases history with
  | none =>
    simp [analyzeSentiment, mkResult, userScores, codeHistTotal]
  | some h =>
    by_cases hh : h.length > 0
    · simp only [analyzeSentiment, Option.getD_some, if_pos hh,
        historyLoop_eq_codeHistTotal, userScores, mkResult]
    · have h0 : h = [] := List.length_eq_zero.mp (by omega)
      subst h0
      simp [analyzeSentiment, mkResult, userScores, codeHistTotal]

lemma foldl_if_add {α : Type} (c : ℤ) (p : α → Bool) (l : List α) (init : ℤ) :
    l.foldl (fun s a => if p a then s + c else s) init =
      init + c * ((l.filter p).length : ℤ) := by
  induction l generalizing init with
  | nil => simp
  | cons x xs ih =>
    simp only [List.foldl_cons, List.filter_cons]
    by_cases hp : p x
    · rw [if_pos hp, ih, if_pos hp]
      push_cast [List.length_cons]
      ring
    · rw [if_neg hp, ih, if_neg hp]

lemma foldl_if_sub {α : Type} (c : ℤ) (p : α → Bool) (l : List α) (init : ℤ) :
    l.foldl (fun s a => if p a then s - c else s) init =
      init - c * ((l.filter p).length : ℤ) := by
  induction l generalizing init with
  | nil => simp
  | cons x xs ih =>
    simp only [List.foldl_cons, List.filter_cons]
    by_cases hp : p x
    · rw [if_pos hp, ih, if_pos hp]
      push_cast [List.length_cons]
      ring
    · rw [if_neg hp, ih, if_neg hp]

lemma jsRound_intCast (n : ℤ) : jsRound ((n : ℤ) : ℚ) = n := by
  unfold jsRound
  rw [Int.floor_eq_iff]
  constructor
  · linarith
  · linarith

/-! ### Claim theorems -/

/-- C2: for every input text and every history, the score returned by
`analyzeSentiment` lies in the closed integer range [0, 100]. -/
theorem analyzeSentiment_score_in_range (text : String)
    (history : Option (List Msg)) :
    0 ≤ (analyzeSentiment text history).score ∧
      (analyzeSentiment text history).score ≤ 100 := by
  rw [analyzeSentiment_eq_mkResult]
  have hs : (mkResult (codeHistTotal (userScores (history.getD [])) +
      ((analyzeTextScore text : ℤ) : ℚ))).score =
      max 0 (min (jsRound (codeHistTotal (userScores (history.getD [])) +
        ((analyzeTextScore text : ℤ) : ℚ))) 100) := rfl
  rw [hs]
  constructor
  · exact le_max_left 0 _
  · exact max_le (by norm_num) (min_le_right _ 100)

/-- C3: the mood classifier's threshold bands, evaluated high-to-low with
first match winning: a score ≥ 70 is HOSTILE, in [40,70) SKEPTICAL, in
[20,40) NEUTRAL, below 20 POSITIVE; exactly 20 classifies as NEUTRAL. -/
theorem getMoodFromScore_threshold_bands (s : ℤ) :
    (70 ≤ s → getMoodFromScore s = .HOSTILE) ∧
    (40 ≤ s → s < 70 → getMoodFromScore s = .SKEPTICAL) ∧
    (20 ≤ s → s < 40 → getMoodFromScore s = .NEUTRAL) ∧
    (s < 20 → getMoodFromScore s = .POSITIVE) ∧
    getMoodFromScore 20 = .NEUTRAL := by
  unfold getMoodFromScore
  refine ⟨?_, ?_, ?_, ?_, by norm_num⟩ <;>
    intros <;> split_ifs <;> first | rfl | omega

/-- Witness for C3 at the concrete scores 85, 55, 20 and 5. -/
theorem getMoodFromScore_threshold_bands_witness :
    getMoodFromScore 85 = .HOSTILE ∧ getMoodFromScore 55 = .SKEPTICAL ∧
    getMoodFromScore 20 = .NEUTRAL ∧ getMoodFromScore 5 = .POSITIVE :=
  ⟨(getMoodFromScore_threshold_bands 85).1 (by norm_num),
   (getMoodFromScore_threshold_bands 55).2.1 (by norm_num) (by norm_num),
   (getMoodFromScore_threshold_bands 20).2.2.1 (by norm_num) (by norm_num),
   (getMoodFromScore_threshold_bands 5).2.2.2.1 (by norm_num)⟩

/-- C4: the strategy selector is the fixed total bijection sending
POSITIVE to AGGRESSIVE, NEUTRAL to ASSERTIVE, SKEPTICAL to DIPLOMATIC and
HOSTILE to YIELDING. -/
theorem getStrategyFromMood_fixed_bijection :
    getStrategyFromMood .POSITIVE = .AGGRESSIVE ∧
    getStrategyFromMood .NEUTRAL = .ASSERTIVE ∧
    getStrategyFromMood .SKEPTICAL = .DIPLOMATIC ∧
    getStrategyFromMood .HOSTILE = .YIELDING ∧
    Function.Bijective getStrategyFromMood := by
  refine ⟨rfl, rfl, rfl, rfl, ?_, ?_⟩
  · intro a b hab
    cases a <;> cases b <;> first | rfl | simp_all [getStrategyFromMood,
      strategySwitchCase]
  · intro s
    cases s
    · exact ⟨.POSITIVE, rfl⟩
    · exact ⟨.NEUTRAL, rfl⟩
    · exact ⟨.SKEPTICAL, rfl⟩
    · exact ⟨.HOSTILE, rfl⟩

/-- C8: every score in [0, 100] falls into one of the four threshold bands
(and is classified accordingly), and for every Mood value the switch in the
strategy selector matches a named case — its default ASSERTIVE branch is
never taken for a valid mood. -/
theorem classifier_selector_totality :
    (∀ s : ℤ, 0 ≤ s → s ≤ 100 →
      ((70 ≤ s ∧ getMoodFromScore s = .HOSTILE) ∨
       (40 ≤ s ∧ s < 70 ∧ getMoodFromScore s = .SKEPTICAL) ∨
       (20 ≤ s ∧ s < 40 ∧ getMoodFromScore s = .NEUTRAL) ∨
       (s < 20 ∧ getMoodFromScore s = .POSITIVE))) ∧
    (∀ m : Mood, ∃ str : Strategy,
      strategySwitchCase m = some str ∧ getStrategyFromMood m = str) := by
  constructor
  · intro s _ _
    unfold getMoodFromScore
    by_cases h70 : 70 ≤ s
    · exact Or.inl ⟨h70, by split_ifs <;> first | rfl | omega⟩
    · by_cases h40 : 40 ≤ s
      · exact Or.inr (Or.inl ⟨h40, by omega, by split_ifs <;> first | rfl | omega⟩)
      · by_cases h20 : 20 ≤ s
        · exact Or.inr (Or.inr (Or.inl ⟨h20, by omega,
            by split_ifs <;> first | rfl | omega⟩))
        · exact Or.inr (Or.inr (Or.inr ⟨by omega,
            by split_ifs <;> first | rfl | omega⟩))
  · intro m
    cases m
    · exact ⟨.AGGRESSIVE, rfl, rfl⟩
    · exact ⟨.ASSERTIVE, rfl, rfl⟩
    · exact ⟨.DIPLOMATIC, rfl, rfl⟩
    · exact ⟨.YIELDING, rfl, rfl⟩

/-- Witness for C8 at the concrete score 50 and the concrete mood HOSTILE. -/
theorem classifier_selector_totality_witness :
    ((70 ≤ (50:ℤ) ∧ getMoodFromScore 50 = .HOSTILE) ∨
     (40 ≤ (50:ℤ) ∧ (50:ℤ) < 70 ∧ getMoodFromScore 50 = .SKEPTICAL) ∨
     (20 ≤ (50:ℤ) ∧ (50:ℤ) < 40 ∧ getMoodFromScore 50 = .NEUTRAL) ∨
     ((50:ℤ) < 20 ∧ getMoodFromScore 50 = .POSITIVE)) ∧
    (∃ str : Strategy, strategySwitchCase .HOSTILE = some str ∧
      getStrategyFromMood .HOSTILE = str) :=
  ⟨classifier_selector_totality.1 50 (by norm_num) (by norm_num),
   classifier_selector_totality.2 .HOSTILE⟩

/-- C5: assistant-authored history entries never contribute: whenever two
histories agree on the contents of their user-role entries in order, the
whole result (score, mood and strategy) of `analyzeSentiment` is the same. -/
theorem assistant_history_never_contributes (text : String) (h1 h2 : List Msg)
    (hagree : (h1.filter (fun m => m.role == "user")).map Msg.content =
      (h2.filter (fun m => m.role == "user")).map Msg.content) :
    analyzeSentiment text (some h1) = analyzeSentiment text (some h2) := by
  rw [analyzeSentiment_eq_mkResult, analyzeSentiment_eq_mkResult]
  have key : ∀ h : List Msg, userScores h =
      ((h.filter (fun m => m.role == "user")).map Msg.content).map
        analyzeTextScore := by
    intro h
    unfold userScores
    rw [List.map_map]
    rfl
  rw [Option.getD_some, Option.getD_some, key h1, key h2, hagree]

/-- Witness for C5: a history with an inflammatory assistant entry gives the
same result as one without it. -/
theorem assistant_history_never_contributes_witness :
    (([(⟨"user", "bad"⟩ : Msg)].filter (fun m => m.role == "user")).map
        Msg.content =
      (([⟨"assistant", "GARBAGE LIAR SCAM"⟩, ⟨"user", "bad"⟩] :
        List Msg).filter (fun m => m.role == "user")).map Msg.content) ∧
    analyzeSentiment "ok" (some [⟨"user", "bad"⟩]) =
      analyzeSentiment "ok"
        (some [⟨"assistant", "GARBAGE LIAR SCAM"⟩, ⟨"user", "bad"⟩]) :=
  ⟨by decide,
   assistant_history_never_contributes "ok" _ _ (by decide)⟩

/-- C6: with an absent (or empty) history the result is the current
utterance's own raw score rounded and clamped to [0,100]; in particular the
empty string with no history gives score 0, mood POSITIVE, strategy
AGGRESSIVE. -/
theorem empty_or_absent_history_behavior (text : String) :
    analyzeSentiment text none = analyzeSentiment text (some []) ∧
    (analyzeSentiment text none).score =
      max 0 (min (jsRound ((analyzeTextScore text : ℤ) : ℚ)) 100) ∧
    analyzeSentiment "" none = ⟨.POSITIVE, 0, .AGGRESSIVE⟩ := by
  refine ⟨?_, ?_, ?_⟩
  · rw [analyzeSentiment_eq_mkResult, analyzeSentiment_eq_mkResult]
    rfl
  · rw [analyzeSentiment_eq_mkResult]
    have h0 : codeHistTotal (userScores ((none : Option (List Msg)).getD [])) = 0 := by
      simp [userScores, codeHistTotal]
    rw [h0, zero_add]
    rfl
  · rw [analyzeSentiment_eq_mkResult]
    have h1 : analyzeTextScore "" = 0 := by decide
    have h0 : codeHistTotal (userScores ((none : Option (List Msg)).getD [])) = 0 := by
      simp [userScores, codeHistTotal]
    rw [h1, h0]
    norm_num [mkResult, jsRound, getMoodFromScore, getStrategyFromMood,
      strategySwitchCase]

/-- C7: the final score rounds the raw weighted total to the nearest integer
first and then clamps to [0,100]: it is `max 0 (min (round total) 100)`,
where the total is the decayed weighted sum over the retained user turns
plus the current utterance's raw score. -/
theorem score_is_round_then_clamp (text : String)
    (history : Option (List Msg)) :
    (analyzeSentiment text history).score =
      max 0 (min (jsRound (codeHistTotal (userScores (history.getD [])) +
        ((analyzeTextScore text : ℤ) : ℚ))) 100) := by
  rw [analyzeSentiment_eq_mkResult]
  rfl

/-- C1 (refuting evaluation): on the history whose older user turn scores 15
and whose newer user turn scores 0, the code produces score 15 — the oldest
turn got weight `0.6^0 = 1` — whereas the claimed weighting
(`0.6^(N-1-i)`, most recent turn at weight 1, `specHistTotal`) would produce
score 9. The code weights turn `i` by `0.6^i`, the reverse of the claim. -/
theorem decay_weights_reversed_on_concrete_history :
    userScores [⟨"user", "bad"⟩, ⟨"user", ""⟩] = [15, 0] ∧
    (analyzeSentiment "" (some [⟨"user", "bad"⟩, ⟨"user", ""⟩])).score = 15 ∧
    specHistTotal [15, 0] + ((analyzeTextScore "" : ℤ) : ℚ) = 9 ∧
    max 0 (min (jsRound (9 : ℚ)) 100) = 9 ∧
    (15 : ℤ) ≠ 9 := by
  refine ⟨by decide, ?_, ?_, ?_, by decide⟩
  · rw [analyzeSentiment_eq_mkResult]
    have h1 : userScores [⟨"user", "bad"⟩, ⟨"user", ""⟩] = [15, 0] := by decide
    have h2 : analyzeTextScore "" = 0 := by decide
    rw [Option.getD_some, h1, h2]
    have h3 : codeHistTotal [15, 0] = 15 := by
      simp [codeHistTotal, List.range_succ, decayFactor]
    rw [h3]
    norm_num [mkResult, jsRound]
  · have h2 : analyzeTextScore "" = 0 := by decide
    rw [h2]
    simp [specHistTotal, List.range_succ, decayFactor]
    norm_num
  · norm_num [jsRound]

/-- C9: "This is terrible and stupid!!" with no history matches the anger
words "terrible" and "stupid" (+15 each) and one multi-punctuation run (+8),
for a raw score of 38, hence mood NEUTRAL and strategy ASSERTIVE. -/
theorem terrible_stupid_evaluates_to_38 :
    containsSub "terrible".data
      ("This is terrible and stupid!!".data.map jsToLowerChar) = true ∧
    containsSub "stupid".data
      ("This is terrible and stupid!!".data.map jsToLowerChar) = true ∧
    punctRuns '!' "This is terrible and stupid!!".data = 1 ∧
    analyzeTextScore "This is terrible and stupid!!" = 15 + 15 + 8 ∧
    analyzeSentiment "This is terrible and stupid!!" none =
      ⟨.NEUTRAL, 38, .ASSERTIVE⟩ := by
  refine ⟨by decide, by decide, by decide, by decide, ?_⟩
  rw [analyzeSentiment_eq_mkResult]
  have h1 : analyzeTextScore "This is terrible and stupid!!" = 38 := by decide
  have h0 : codeHistTotal (userScores ((none : Option (List Msg)).getD [])) = 0 := by
    simp [userScores, codeHistTotal]
  rw [h1, h0]
  norm_num [mkResult, jsRound, getMoodFromScore, getStrategyFromMood,
    strategySwitchCase]

/-- C10: lexicon deltas are applied once per lexicon entry present — the
score decomposes as 15 / 10 / −8 times the number of *entries* that occur at
all — while all-caps tokens and punctuation runs count per occurrence
(+12 / +8 per match): "bad bad bad" scores 15 (not 45), while "WRONG WRONG"
scores 15 + 2·12 and "!! !!" scores 2·8. -/
theorem lexicon_once_per_entry_regex_per_occurrence (text : String) :
    (analyzeTextScore text =
      15 * ((ANGER_WORDS.filter
          (fun w => containsSub w.data (text.data.map jsToLowerChar))).length : ℤ) +
        10 * ((SKEPTICAL_PHRASES.filter
          (fun p => containsSub p.data (text.data.map jsToLowerChar))).length : ℤ) -
        8 * ((POSITIVE_WORDS.filter
          (fun w => containsSub w.data (text.data.map jsToLowerChar))).length : ℤ) +
        (capsCount text.data : ℤ) * 12 +
        ((punctRuns '!' text.data : ℤ) + (punctRuns '?' text.data : ℤ)) * 8) ∧
    analyzeTextScore "bad bad bad" = 15 ∧ (15 : ℤ) ≠ 3 * 15 ∧
    analyzeTextScore "WRONG WRONG" = 15 + 2 * 12 ∧
    analyzeTextScore "!! !!" = 2 * 8 := by
  refine ⟨?_, by decide, by decide, by decide, by decide⟩
  simp only [analyzeTextScore]
  rw [foldl_if_add 15
      (fun w => containsSub w.data (text.data.map jsToLowerChar)) ANGER_WORDS 0,
    foldl_if_add 10
      (fun p => containsSub p.data (text.data.map jsToLowerChar)) SKEPTICAL_PHRASES _,
    foldl_if_sub 8
      (fun w => containsSub w.data (text.data.map jsToLowerChar)) POSITIVE_WORDS _]
  ring
